import Mathlib

/-!
Shallow embedding of `src/flame/app.py`: a FastAPI + SQLAlchemy CRUD service
over two entities, `Usuario` (user) and `Endereco` (address), with a foreign
key from address to user and cascading delete.

The relational store is modelled as an explicit `DB` state: the two tables as
lists of rows in insertion order, together with the auto-increment counters the
store uses to generate primary keys.  Each route handler of `app.py` becomes a
Lean function `DB → args → Except HTTPException (Nat × α) × DB` returning the
HTTP result (status code and body, or a raised `HTTPException`) and the store
state after the request; a handler that raises before any write returns the
store unchanged, matching the code where `raise HTTPException` precedes
`db.add` / `db.commit`.

Timestamps (`criado_em = datetime.utcnow`) are modelled as an extra `now : Nat`
parameter passed to the creating handlers.
-/

/-- A row of the `usuarios` table (`class Usuario(Base)` in app.py):
auto-increment integer primary key, name, unique email, creation timestamp. -/
structure Usuario where
  id : Nat
  nome : String
  email : String
  criado_em : Nat
  deriving Repr, DecidableEq

/-- A row of the `enderecos` table (`class Endereco(Base)` in app.py):
auto-increment integer primary key, street, city, optional postal code
(`cep` is nullable), foreign key `usuario_id`, creation timestamp. -/
structure Endereco where
  id : Nat
  rua : String
  cidade : String
  cep : Option String
  usuario_id : Nat
  criado_em : Nat
  deriving Repr, DecidableEq

/-- The relational store: both tables in insertion order plus the
auto-increment counters for the two primary keys. -/
structure DB where
  usuarios : List Usuario
  enderecos : List Endereco
  nextUsuarioId : Nat
  nextEnderecoId : Nat
  deriving Repr, DecidableEq

/-- The store of a freshly created database (`Base.metadata.create_all`):
empty tables, auto-increment counters starting at 1. -/
def emptyDB : DB := ⟨[], [], 1, 1⟩

/-- The error raised by handlers: `HTTPException(status_code=..., detail=...)`. -/
structure HTTPException where
  status_code : Nat
  detail : String
  deriving Repr, DecidableEq

/-- Request body of `POST /usuarios` and `PUT /usuarios/{id}`
(`class UsuarioCreate(UsuarioBase)`: `nome`, `email`). -/
structure UsuarioCreate where
  nome : String
  email : String
  deriving Repr, DecidableEq

/-- Request body of `POST /usuarios/{id}/enderecos` and `PUT /enderecos/{id}`
(`class EnderecoBase(BaseModel)`: `rua`, `cidade`, optional `cep`; note it has
no `usuario_id` field).  An omitted `cep` in the JSON body validates to the
pydantic default `None`, i.e. `none` here. -/
structure EnderecoBase where
  rua : String
  cidade : String
  cep : Option String
  deriving Repr, DecidableEq

/-- Replace the first element satisfying `p` by its image under `f`, leaving
everything else in place.  This is how an ORM in-place mutation of the single
object returned by `query(...).first()` acts on the table. -/
def updateFirst (p : α → Bool) (f : α → α) : List α → List α
  | [] => []
  | x :: xs => if p x then f x :: xs else x :: updateFirst p f xs

/-- Handler of `POST /usuarios` (status_code=201), `criar_usuario` in app.py:
reject with 400 if some stored user has the same email, else insert a row with
a fresh id and the creation timestamp and return it. -/
def criar_usuario (db : DB) (usuario : UsuarioCreate) (now : Nat) :
    Except HTTPException (Nat × Usuario) × DB :=
  match db.usuarios.find? (fun u => u.email == usuario.email) with
  | some _ => (Except.error ⟨400, "Email já cadastrado"⟩, db)
  | none =>
    let novo_usuario : Usuario := ⟨db.nextUsuarioId, usuario.nome, usuario.email, now⟩
    (Except.ok (201, novo_usuario),
     { db with usuarios := db.usuarios ++ [novo_usuario],
               nextUsuarioId := db.nextUsuarioId + 1 })

/-- Handler of `GET /usuarios`, `listar_usuarios` in app.py:
`db.query(Usuario).offset(skip).limit(limit).all()` over the insertion-ordered
table.  The route declares defaults `skip = 0`, `limit = 10`. -/
def listar_usuarios (db : DB) (skip : Nat) (limit : Nat) :
    Except HTTPException (Nat × List Usuario) × DB :=
  (Except.ok (200, (db.usuarios.drop skip).take limit), db)

/-- Handler of `GET /usuarios/{usuario_id}`, `obter_usuario` in app.py:
404 if absent, else the user; the response model `UsuarioComEnderecos`
serialises the ORM relationship `usuario.enderecos`, i.e. every stored address
whose `usuario_id` equals the user's id. -/
def obter_usuario (db : DB) (usuario_id : Nat) :
    Except HTTPException (Nat × Usuario × List Endereco) × DB :=
  match db.usuarios.find? (fun u => u.id == usuario_id) with
  | none => (Except.error ⟨404, "Usuário não encontrado"⟩, db)
  | some usuario =>
    (Except.ok (200, usuario, db.enderecos.filter (fun e => e.usuario_id == usuario.id)), db)

/-- Handler of `PUT /usuarios/{usuario_id}`, `atualizar_usuario` in app.py:
404 if the id is absent; 400 if another user (id different) already has the new
email; otherwise mutate `nome` and `email` of the found row in place and
return it. -/
def atualizar_usuario (db : DB) (usuario_id : Nat) (usuario : UsuarioCreate) :
    Except HTTPException (Nat × Usuario) × DB :=
  match db.usuarios.find? (fun u => u.id == usuario_id) with
  | none => (Except.error ⟨404, "Usuário não encontrado"⟩, db)
  | some usuario_db =>
    match db.usuarios.find? (fun u => u.email == usuario.email && u.id != usuario_id) with
    | some _ => (Except.error ⟨400, "Email já cadastrado"⟩, db)
    | none =>
      (Except.ok (200, { usuario_db with nome := usuario.nome, email := usuario.email }),
       { db with usuarios := updateFirst (fun u => u.id == usuario_id)
                   (fun u => { u with nome := usuario.nome, email := usuario.email })
                   db.usuarios })

/-- Handler of `DELETE /usuarios/{usuario_id}` (status_code=204),
`deletar_usuario` in app.py: 404 if absent; otherwise delete the row, and the
`ondelete="CASCADE"` foreign key (with the ORM cascade
`"all, delete-orphan"`) deletes every address row whose `usuario_id`
references it. -/
def deletar_usuario (db : DB) (usuario_id : Nat) :
    Except HTTPException (Nat × Unit) × DB :=
  match db.usuarios.find? (fun u => u.id == usuario_id) with
  | none => (Except.error ⟨404, "Usuário não encontrado"⟩, db)
  | some _ =>
    (Except.ok (204, ()),
     { db with usuarios := db.usuarios.eraseP (fun u => u.id == usuario_id),
               enderecos := db.enderecos.filter (fun e => !(e.usuario_id == usuario_id)) })

/-- Handler of `POST /usuarios/{usuario_id}/enderecos` (status_code=201),
`criar_endereco` in app.py: 404 if the user id from the URL path is absent;
otherwise insert an address row whose `usuario_id` is the path parameter
(the body is an `EnderecoBase`, which carries no `usuario_id`). -/
def criar_endereco (db : DB) (usuario_id : Nat) (endereco : EnderecoBase) (now : Nat) :
    Except HTTPException (Nat × Endereco) × DB :=
  match db.usuarios.find? (fun u => u.id == usuario_id) with
  | none => (Except.error ⟨404, "Usuário não encontrado"⟩, db)
  | some _ =>
    let novo_endereco : Endereco :=
      ⟨db.nextEnderecoId, endereco.rua, endereco.cidade, endereco.cep, usuario_id, now⟩
    (Except.ok (201, novo_endereco),
     { db with enderecos := db.enderecos ++ [novo_endereco],
               nextEnderecoId := db.nextEnderecoId + 1 })

/-- Handler of `GET /usuarios/{usuario_id}/enderecos`,
`obter_enderecos_usuario` in app.py: 404 if the user is absent, else the ORM
relationship `usuario.enderecos`. -/
def obter_enderecos_usuario (db : DB) (usuario_id : Nat) :
    Except HTTPException (Nat × List Endereco) × DB :=
  match db.usuarios.find? (fun u => u.id == usuario_id) with
  | none => (Except.error ⟨404, "Usuário não encontrado"⟩, db)
  | some usuario =>
    (Except.ok (200, db.enderecos.filter (fun e => e.usuario_id == usuario.id)), db)

/-- Handler of `PUT /enderecos/{endereco_id}`, `atualizar_endereco` in app.py:
404 if absent; otherwise mutate `rua`, `cidade` and `cep` of the found row in
place — `cep` is assigned unconditionally, so a body without `cep` (which
validates to `none`) clears the stored value — and return the row. -/
def atualizar_endereco (db : DB) (endereco_id : Nat) (endereco : EnderecoBase) :
    Except HTTPException (Nat × Endereco) × DB :=
  match db.enderecos.find? (fun e => e.id == endereco_id) with
  | none => (Except.error ⟨404, "Endereço não encontrado"⟩, db)
  | some endereco_db =>
    (Except.ok (200, { endereco_db with rua := endereco.rua, cidade := endereco.cidade,
                                        cep := endereco.cep }),
     { db with enderecos := updateFirst (fun e => e.id == endereco_id)
                 (fun e => { e with rua := endereco.rua, cidade := endereco.cidade,
                                    cep := endereco.cep })
                 db.enderecos })

/-- Handler of `DELETE /enderecos/{endereco_id}` (status_code=204),
`deletar_endereco` in app.py: 404 if absent, else delete the found row. -/
def deletar_endereco (db : DB) (endereco_id : Nat) :
    Except HTTPException (Nat × Unit) × DB :=
  match db.enderecos.find? (fun e => e.id == endereco_id) with
  | none => (Except.error ⟨404, "Endereço não encontrado"⟩, db)
  | some _ =>
    (Except.ok (204, ()),
     { db with enderecos := db.enderecos.eraseP (fun e => e.id == endereco_id) })

/-! ### Two-phase model of `criar_usuario` for the concurrency analysis

`criar_usuario` is not atomic: it first reads
(`db.query(Usuario).filter(Usuario.email == ...).first()`) and only then
writes (`db.add(...); db.commit()`).  Two racing requests may interleave
between the two phases.  The store itself enforces
`email = Column(..., unique=True, ...)` (app.py line 40), so a commit whose
email is already stored raises an integrity error — which the handler code
does not catch. -/

/-- Outcome of one request in the two-phase model. -/
inductive RequestOutcome where
  /-- The handler returned 201 with the created row. -/
  | created : Usuario → RequestOutcome
  /-- The handler raised an `HTTPException` (mapped to its status code). -/
  | httpError : HTTPException → RequestOutcome
  /-- `db.commit()` violated the store's unique-email constraint; the handler
  has no `try/except`, so the error propagates unhandled (a generic server
  fault, not an `HTTPException`). -/
  | integrityError : RequestOutcome
  deriving Repr, DecidableEq

/-- Phase 1 of `criar_usuario`: the application-level existence pre-check. -/
def criar_usuario_check (db : DB) (usuario : UsuarioCreate) : Option HTTPException :=
  match db.usuarios.find? (fun u => u.email == usuario.email) with
  | some _ => some ⟨400, "Email já cadastrado"⟩
  | none => none

/-- Phase 2 of `criar_usuario`: `db.add(novo_usuario); db.commit()`.  The
store's `unique=True` index on `email` rejects the insert if the email is
already stored at commit time; the handler does not catch that error. -/
def criar_usuario_commit (db : DB) (usuario : UsuarioCreate) (now : Nat) :
    RequestOutcome × DB :=
  if db.usuarios.any (fun u => u.email == usuario.email) then
    (RequestOutcome.integrityError, db)
  else
    let novo_usuario : Usuario := ⟨db.nextUsuarioId, usuario.nome, usuario.email, now⟩
    (RequestOutcome.created novo_usuario,
     { db with usuarios := db.usuarios ++ [novo_usuario],
               nextUsuarioId := db.nextUsuarioId + 1 })

/-- Two `criar_usuario` requests interleaved as check₁, check₂, commit₁,
commit₂: both pre-checks read the same initial store before either commit. -/
def race_criar_usuario (db : DB) (u1 u2 : UsuarioCreate) (now : Nat) :
    RequestOutcome × RequestOutcome × DB :=
  match criar_usuario_check db u1, criar_usuario_check db u2 with
  | some e1, some e2 => (RequestOutcome.httpError e1, RequestOutcome.httpError e2, db)
  | some e1, none =>
    let r2 := criar_usuario_commit db u2 now
    (RequestOutcome.httpError e1, r2.1, r2.2)
  | none, some e2 =>
    let r1 := criar_usuario_commit db u1 now
    (r1.1, RequestOutcome.httpError e2, r1.2)
  | none, none =>
    let r1 := criar_usuario_commit db u1 now
    let r2 := criar_usuario_commit r1.2 u2 now
    (r1.1, r2.1, r2.2)

/-- Whether an outcome is the `DuplicateEmail` condition the spec requires:
an `HTTPException` with status 400. -/
def isDuplicateEmailResponse : RequestOutcome → Bool
  | RequestOutcome.httpError e => e.status_code == 400
  | _ => false

/-- The referential-integrity invariant of the data model: every stored
address's `usuario_id` references an existing user. -/
def RefIntegrity (db : DB) : Prop :=
  ∀ e ∈ db.enderecos, ∃ u ∈ db.usuarios, u.id = e.usuario_id

/-- Primary-key uniqueness of the `usuarios` table: no two rows share an id. -/
def UsuarioIdsNodup (db : DB) : Prop :=
  (db.usuarios.map Usuario.id).Nodup

/-- Primary-key uniqueness of the `enderecos` table: no two rows share an id. -/
def EnderecoIdsNodup (db : DB) : Prop :=
  (db.enderecos.map Endereco.id).Nodup

/-- Auto-increment soundness: every issued user id is below the counter. -/
def UsuarioIdsBelowNext (db : DB) : Prop :=
  ∀ u ∈ db.usuarios, u.id < db.nextUsuarioId

instance (db : DB) : Decidable (UsuarioIdsNodup db) := by
  unfold UsuarioIdsNodup; infer_instance

instance (db : DB) : Decidable (EnderecoIdsNodup db) := by
  unfold EnderecoIdsNodup; infer_instance

instance (db : DB) : Decidable (UsuarioIdsBelowNext db) := by
  unfold UsuarioIdsBelowNext; exact List.decidableBAll _ _

/-! ### List helper lemmas -/

/-- Decomposition of a successful `find?`: the list splits around the first
match, and both `updateFirst` and `eraseP` act only on that position. -/
theorem find?_split (p : α → Bool) (f : α → α) (l : List α) (a : α)
    (h : l.find? p = some a) :
    ∃ l1 l2, l = l1 ++ a :: l2 ∧ (∀ x ∈ l1, ¬ p x)
      ∧ updateFirst p f l = l1 ++ f a :: l2 ∧ l.eraseP p = l1 ++ l2 := by
  induction l with
  | nil => simp [List.find?] at h
  | cons x xs ih =>
    by_cases hx : p x
    · rw [List.find?_cons_of_pos _ hx] at h
      cases h
      exact ⟨[], xs, rfl, by simp, by simp [updateFirst, hx], by simp [List.eraseP_cons_of_pos hx]⟩
    · rw [List.find?_cons_of_neg _ hx] at h
      obtain ⟨l1, l2, hl, h1, h2, h3⟩ := ih h
      refine ⟨x :: l1, l2, by simp [hl], ?_, ?_, ?_⟩
      · intro y hy
        rcases List.mem_cons.mp hy with rfl | hy
        · exact hx
        · exact h1 y hy
      · simp [updateFirst, hx, h2]
      · simp [List.eraseP_cons_of_neg hx, h3]

/-- `find?` returns `none` exactly when no element satisfies the predicate. -/
theorem find?_eq_none_of_forall (p : α → Bool) (l : List α)
    (h : ∀ x ∈ l, ¬ p x) : l.find? p = none :=
  List.find?_eq_none.mpr h

/-- A witness satisfying the predicate forces `find?` to succeed. -/
theorem find?_isSome_of_exists (p : α → Bool) (l : List α)
    (h : ∃ x ∈ l, p x) : ∃ a, l.find? p = some a := by
  have := List.find?_isSome.mpr h
  exact Option.isSome_iff_exists.mp this

/-- `updateFirst` does not change the image of the list under `g` when `f`
preserves `g`. -/
theorem updateFirst_map (p : α → Bool) (f : α → α) (g : α → β)
    (hf : ∀ x, g (f x) = g x) (l : List α) :
    (updateFirst p f l).map g = l.map g := by
  induction l with
  | nil => rfl
  | cons x xs ih =>
    by_cases hx : p x
    · simp [updateFirst, hx, hf]
    · simp [updateFirst, hx, ih]

/-- Every element of `updateFirst p f l` is an old element or the image of an
old element satisfying `p`. -/
theorem mem_updateFirst (p : α → Bool) (f : α → α) (l : List α) (x : α)
    (h : x ∈ updateFirst p f l) : x ∈ l ∨ ∃ y ∈ l, p y ∧ x = f y := by
  induction l with
  | nil => simp [updateFirst] at h
  | cons z zs ih =>
    by_cases hz : p z
    · simp only [updateFirst, if_pos hz, List.mem_cons] at h
      rcases h with rfl | h
      · exact Or.inr ⟨z, List.mem_cons_self z zs, hz, rfl⟩
      · exact Or.inl (List.mem_cons_of_mem _ h)
    · simp only [updateFirst, if_neg hz, List.mem_cons] at h
      rcases h with rfl | h
      · exact Or.inl (List.mem_cons_self x zs)
      · rcases ih h with h' | ⟨y, hy, hpy, hxy⟩
        · exact Or.inl (List.mem_cons_of_mem _ h')
        · exact Or.inr ⟨y, List.mem_cons_of_mem _ hy, hpy, hxy⟩

/-! ### Read-only handlers leave the store unchanged -/

theorem listar_usuarios_state (db : DB) (skip limit : Nat) :
    (listar_usuarios db skip limit).2 = db := rfl

theorem obter_usuario_state (db : DB) (usuario_id : Nat) :
    (obter_usuario db usuario_id).2 = db := by
  unfold obter_usuario
  cases hf : db.usuarios.find? (fun u => u.id == usuario_id) <;> simp [hf]

theorem obter_enderecos_usuario_state (db : DB) (usuario_id : Nat) :
    (obter_enderecos_usuario db usuario_id).2 = db := by
  unfold obter_enderecos_usuario
  cases hf : db.usuarios.find? (fun u => u.id == usuario_id) <;> simp [hf]

/-! ### Referential-integrity preservation, one lemma per mutating handler -/

theorem refIntegrity_criar_usuario (db : DB) (inp : UsuarioCreate) (now : Nat)
    (h : RefIntegrity db) : RefIntegrity (criar_usuario db inp now).2 := by
  unfold RefIntegrity criar_usuario
  cases hf : db.usuarios.find? (fun u => u.email == inp.email) with
  | none =>
    simp only [hf]
    intro e he
    obtain ⟨u, hu, hid⟩ := h e he
    exact ⟨u, List.mem_append_left _ hu, hid⟩
  | some u => simp only [hf]; exact h

theorem refIntegrity_atualizar_usuario (db : DB) (uid : Nat) (inp : UsuarioCreate)
    (h : RefIntegrity db) : RefIntegrity (atualizar_usuario db uid inp).2 := by
  unfold RefIntegrity atualizar_usuario
  cases hf : db.usuarios.find? (fun u => u.id == uid) with
  | none => simp only [hf]; exact h
  | some u =>
    cases hf2 : db.usuarios.find? (fun v => v.email == inp.email && v.id != uid) with
    | some _ => simp only [hf, hf2]; exact h
    | none =>
      simp only [hf, hf2]
      intro e he
      obtain ⟨v, hv, hid⟩ := h e he
      have hmap := updateFirst_map (fun u => u.id == uid)
        (fun u => { u with nome := inp.nome, email := inp.email }) Usuario.id
        (fun _ => rfl) db.usuarios
      have hmem : e.usuario_id ∈ (updateFirst (fun u => u.id == uid)
          (fun u => { u with nome := inp.nome, email := inp.email }) db.usuarios).map Usuario.id := by
        rw [hmap]
        exact List.mem_map.mpr ⟨v, hv, hid⟩
      obtain ⟨w, hw, hwid⟩ := List.mem_map.mp hmem
      exact ⟨w, hw, hwid⟩

theorem refIntegrity_deletar_usuario (db : DB) (uid : Nat)
    (h : RefIntegrity db) : RefIntegrity (deletar_usuario db uid).2 := by
  unfold RefIntegrity deletar_usuario
  cases hf : db.usuarios.find? (fun u => u.id == uid) with
  | none => simp only [hf]; exact h
  | some u =>
    simp only [hf]
    intro e he
    have he' := List.mem_filter.mp he
    obtain ⟨v, hv, hid⟩ := h e he'.1
    refine ⟨v, (List.mem_eraseP_of_neg ?_).mpr hv, hid⟩
    have : e.usuario_id ≠ uid := by simpa using he'.2
    simp [hid, this]

theorem refIntegrity_criar_endereco (db : DB) (uid : Nat) (b : EnderecoBase) (now : Nat)
    (h : RefIntegrity db) : RefIntegrity (criar_endereco db uid b now).2 := by
  unfold RefIntegrity criar_endereco
  cases hf : db.usuarios.find? (fun u => u.id == uid) with
  | none => simp only [hf]; exact h
  | some u =>
    simp only [hf]
    intro e he
    rcases List.mem_append.mp he with he' | he'
    · exact h e he'
    · have hn : e = ⟨db.nextEnderecoId, b.rua, b.cidade, b.cep, uid, now⟩ :=
        List.mem_singleton.mp he'
      have hu := List.find?_some hf
      exact ⟨u, List.mem_of_find?_eq_some hf, by simp [hn]; simpa using hu⟩

theorem refIntegrity_atualizar_endereco (db : DB) (eid : Nat) (b : EnderecoBase)
    (h : RefIntegrity db) : RefIntegrity (atualizar_endereco db eid b).2 := by
  unfold RefIntegrity atualizar_endereco
  cases hf : db.enderecos.find? (fun e => e.id == eid) with
  | none => simp only [hf]; exact h
  | some e0 =>
    simp only [hf]
    intro e he
    rcases mem_updateFirst _ _ _ _ he with he' | ⟨y, hy, _, hey⟩
    · exact h e he'
    · obtain ⟨v, hv, hid⟩ := h y hy
      exact ⟨v, hv, by rw [hey]; exact hid⟩

theorem refIntegrity_deletar_endereco (db : DB) (eid : Nat)
    (h : RefIntegrity db) : RefIntegrity (deletar_endereco db eid).2 := by
  unfold RefIntegrity deletar_endereco
  cases hf : db.enderecos.find? (fun e => e.id == eid) with
  | none => simp only [hf]; exact h
  | some e0 =>
    simp only [hf]
    intro e he
    exact h e ((db.enderecos.eraseP_sublist).mem he)

/-- If the keys of a split list are nodup, no element of either side shares
the middle element's key. -/
theorem nodup_split_keys (g : α → Nat) (l1 l2 : List α) (a : α)
    (h : ((l1 ++ a :: l2).map g).Nodup) :
    (∀ x ∈ l1, g x ≠ g a) ∧ (∀ x ∈ l2, g x ≠ g a) := by
  rw [List.map_append, List.map_cons, List.nodup_middle, List.nodup_cons] at h
  constructor
  · intro x hx hgx
    exact h.1 (List.mem_append_left _ (hgx ▸ List.mem_map_of_mem g hx))
  · intro x hx hgx
    exact h.1 (List.mem_append_right _ (hgx ▸ List.mem_map_of_mem g hx))

/-- Under nodup keys, `find?` by key returns exactly the member with that
key. -/
theorem find?_key_eq_some (g : α → Nat) (i : Nat) (l : List α) (a : α)
    (hnd : (l.map g).Nodup) (ha : a ∈ l) (hai : g a = i) :
    l.find? (fun x => g x == i) = some a := by
  obtain ⟨a0, h0⟩ := find?_isSome_of_exists (fun x => g x == i) l ⟨a, ha, by simp [hai]⟩
  have hkey := List.find?_some h0
  have h0mem := List.mem_of_find?_eq_some h0
  have : a0 = a := by
    refine List.inj_on_of_nodup_map hnd h0mem ha ?_
    have : g a0 = i := by simpa using hkey
    omega
  exact this ▸ h0

/-! ### Claim theorems -/

/-- C6: `GET /usuarios` with pagination parameters `skip` and `limit` never
fails, leaves the store unchanged, and returns the stored users in insertion
order with the first `skip` records dropped and at most `limit` records
returned (element `i` of the page is stored element `skip + i`).  In
particular, after creating users A,B,C,D,E in that order into an empty store,
listing with `skip = 2`, `limit = 2` returns exactly `[C, D]`. -/
theorem listar_usuarios_spec (db : DB) (skip limit : Nat) :
    listar_usuarios db skip limit
        = (Except.ok (200, (db.usuarios.drop skip).take limit), db)
  ∧ ((db.usuarios.drop skip).take limit).length ≤ limit
  ∧ (∀ i (h1 : i < ((db.usuarios.drop skip).take limit).length)
       (h2 : skip + i < db.usuarios.length),
       ((db.usuarios.drop skip).take limit).get ⟨i, h1⟩ = db.usuarios.get ⟨skip + i, h2⟩)
  ∧ (listar_usuarios
       (criar_usuario
         (criar_usuario
           (criar_usuario
             (criar_usuario
               (criar_usuario emptyDB ⟨"A", "a@x.com"⟩ 0).2
               ⟨"B", "b@x.com"⟩ 0).2
             ⟨"C", "c@x.com"⟩ 0).2
           ⟨"D", "d@x.com"⟩ 0).2
         ⟨"E", "e@x.com"⟩ 0).2
       2 2).1
      = Except.ok (200, [⟨3, "C", "c@x.com", 0⟩, ⟨4, "D", "d@x.com", 0⟩]) := by
  refine ⟨rfl, List.length_take_le _ _, ?_, rfl⟩
  intro i h1 h2
  simp [List.getElem_take, List.getElem_drop]

/-- C4: `PUT /enderecos/{id}` fails with 404 when the id is absent (store
unchanged); otherwise it overwrites `rua`, `cidade` and `cep` unconditionally —
in particular a body whose `cep` is omitted (validates to `none`) clears the
stored `cep` — while the row's `id`, `usuario_id` and `criado_em`, every other
row, and the rest of the store stay unchanged. -/
theorem atualizar_endereco_spec (db : DB) (eid : Nat) (b : EnderecoBase)
    (hE : EnderecoIdsNodup db) :
    ((∀ e ∈ db.enderecos, e.id ≠ eid) →
        atualizar_endereco db eid b = (Except.error ⟨404, "Endereço não encontrado"⟩, db))
  ∧ (∀ e ∈ db.enderecos, e.id = eid →
        (atualizar_endereco db eid b).1
            = Except.ok (200, { e with rua := b.rua, cidade := b.cidade, cep := b.cep })
      ∧ (Endereco.mk e.id b.rua b.cidade b.cep e.usuario_id e.criado_em
            = { e with rua := b.rua, cidade := b.cidade, cep := b.cep })
      ∧ (b.cep = none →
            ({ e with rua := b.rua, cidade := b.cidade, cep := b.cep } : Endereco).cep = none)
      ∧ ({ e with rua := b.rua, cidade := b.cidade, cep := b.cep }
            ∈ (atualizar_endereco db eid b).2.enderecos)
      ∧ (∀ e' ∈ db.enderecos, e'.id ≠ eid → e' ∈ (atualizar_endereco db eid b).2.enderecos)
      ∧ (∀ e' ∈ (atualizar_endereco db eid b).2.enderecos,
            e' = { e with rua := b.rua, cidade := b.cidade, cep := b.cep }
          ∨ (e' ∈ db.enderecos ∧ e'.id ≠ eid))
      ∧ (atualizar_endereco db eid b).2.usuarios = db.usuarios
      ∧ (atualizar_endereco db eid b).2.nextUsuarioId = db.nextUsuarioId
      ∧ (atualizar_endereco db eid b).2.nextEnderecoId = db.nextEnderecoId) := by
  constructor
  · intro h
    have hnone : db.enderecos.find? (fun x => x.id == eid) = none :=
      find?_eq_none_of_forall _ _ (by intro x hx; simpa using h x hx)
    unfold atualizar_endereco
    rw [hnone]
  · intro e he heid
    have hfind : db.enderecos.find? (fun x => x.id == eid) = some e :=
      find?_key_eq_some Endereco.id eid db.enderecos e hE he heid
    obtain ⟨l1, l2, hsplit, hl1, hupd, -⟩ :=
      find?_split (fun x => x.id == eid)
        (fun x => { x with rua := b.rua, cidade := b.cidade, cep := b.cep })
        db.enderecos e hfind
    have hkeys := nodup_split_keys Endereco.id l1 l2 e (by rw [← hsplit]; exact hE)
    have hR1 : (atualizar_endereco db eid b).1
        = Except.ok (200, { e with rua := b.rua, cidade := b.cidade, cep := b.cep }) := by
      unfold atualizar_endereco
      rw [hfind]
    have hR2 : (atualizar_endereco db eid b).2.enderecos
        = l1 ++ { e with rua := b.rua, cidade := b.cidade, cep := b.cep } :: l2 := by
      unfold atualizar_endereco
      rw [hfind]
      exact hupd
    have hR3 : (atualizar_endereco db eid b).2.usuarios = db.usuarios := by
      unfold atualizar_endereco
      rw [hfind]
    have hR4 : (atualizar_endereco db eid b).2.nextUsuarioId = db.nextUsuarioId := by
      unfold atualizar_endereco
      rw [hfind]
    have hR5 : (atualizar_endereco db eid b).2.nextEnderecoId = db.nextEnderecoId := by
      unfold atualizar_endereco
      rw [hfind]
    refine ⟨hR1, rfl, fun hc => by simp [hc], ?_, ?_, ?_, hR3, hR4, hR5⟩
    · rw [hR2]
      exact List.mem_append_right _ (List.mem_cons_self _ _)
    · intro e' he' hne
      rw [hR2]
      rw [hsplit] at he'
      rcases List.mem_append.mp he' with h1 | h2
      · exact List.mem_append_left _ h1
      · rcases List.mem_cons.mp h2 with rfl | h3
        · exact absurd heid hne
        · exact List.mem_append_right _ (List.mem_cons_of_mem _ h3)
    · intro e' he'
      rw [hR2] at he'
      rcases List.mem_append.mp he' with h1 | h2
      · refine Or.inr ⟨by rw [hsplit]; exact List.mem_append_left _ h1, ?_⟩
        rw [← heid]
        exact (hkeys.1 e' h1)
      · rcases List.mem_cons.mp h2 with rfl | h3
        · exact Or.inl rfl
        · refine Or.inr ⟨by rw [hsplit]; exact List.mem_append_right _ (List.mem_cons_of_mem _ h3), ?_⟩
          rw [← heid]
          exact (hkeys.2 e' h3)

/-- Witness for C4 at a concrete store: one user, one address with a stored
postal code; updating with a body whose `cep` is `none` clears the stored
value. -/
theorem atualizar_endereco_spec_witness :
    (atualizar_endereco ⟨[⟨1, "u", "u@x.com", 0⟩], [⟨1, "r", "c", some "123", 1, 0⟩], 2, 2⟩
        1 ⟨"r2", "c2", none⟩).1
      = Except.ok (200, ⟨1, "r2", "c2", none, 1, 0⟩) := by
  have h := (atualizar_endereco_spec
    ⟨[⟨1, "u", "u@x.com", 0⟩], [⟨1, "r", "c", some "123", 1, 0⟩], 2, 2⟩
    1 ⟨"r2", "c2", none⟩ (by decide)).2
  exact (h ⟨1, "r", "c", some "123", 1, 0⟩ (by simp) rfl).1

/-- C9: `DELETE /enderecos/{id}` on an existing id returns 204 and removes
exactly that one address row — users, counters and every other address row are
unchanged; on an absent id it fails with 404 leaving the store unchanged. -/
theorem deletar_endereco_spec (db : DB) (eid : Nat) (hE : EnderecoIdsNodup db) :
    ((∀ e ∈ db.enderecos, e.id ≠ eid) →
        deletar_endereco db eid = (Except.error ⟨404, "Endereço não encontrado"⟩, db))
  ∧ (∀ e ∈ db.enderecos, e.id = eid →
        (deletar_endereco db eid).1 = Except.ok (204, ())
      ∧ (∀ e' ∈ (deletar_endereco db eid).2.enderecos, e' ∈ db.enderecos ∧ e'.id ≠ eid)
      ∧ (∀ e' ∈ db.enderecos, e'.id ≠ eid → e' ∈ (deletar_endereco db eid).2.enderecos)
      ∧ e ∉ (deletar_endereco db eid).2.enderecos
      ∧ (deletar_endereco db eid).2.usuarios = db.usuarios
      ∧ (deletar_endereco db eid).2.nextUsuarioId = db.nextUsuarioId
      ∧ (deletar_endereco db eid).2.nextEnderecoId = db.nextEnderecoId) := by
  constructor
  · intro h
    have hnone : db.enderecos.find? (fun x => x.id == eid) = none :=
      find?_eq_none_of_forall _ _ (by intro x hx; simpa using h x hx)
    unfold deletar_endereco
    rw [hnone]
  · intro e he heid
    have hfind : db.enderecos.find? (fun x => x.id == eid) = some e :=
      find?_key_eq_some Endereco.id eid db.enderecos e hE he heid
    obtain ⟨l1, l2, hsplit, hl1, -, herase⟩ :=
      find?_split (fun x => x.id == eid) id db.enderecos e hfind
    have hkeys := nodup_split_keys Endereco.id l1 l2 e (by rw [← hsplit]; exact hE)
    have hR1 : (deletar_endereco db eid).1 = Except.ok (204, ()) := by
      unfold deletar_endereco
      rw [hfind]
    have hR2 : (deletar_endereco db eid).2.enderecos = l1 ++ l2 := by
      unfold deletar_endereco
      rw [hfind]
      exact herase
    have hR3 : (deletar_endereco db eid).2.usuarios = db.usuarios := by
      unfold deletar_endereco
      rw [hfind]
    have hR4 : (deletar_endereco db eid).2.nextUsuarioId = db.nextUsuarioId := by
      unfold deletar_endereco
      rw [hfind]
    have hR5 : (deletar_endereco db eid).2.nextEnderecoId = db.nextEnderecoId := by
      unfold deletar_endereco
      rw [hfind]
    have hmem : ∀ e' ∈ (deletar_endereco db eid).2.enderecos,
        e' ∈ db.enderecos ∧ e'.id ≠ eid := by
      intro e' he'
      rw [hR2] at he'
      rcases List.mem_append.mp he' with h1 | h2
      · exact ⟨by rw [hsplit]; exact List.mem_append_left _ h1, heid ▸ hkeys.1 e' h1⟩
      · exact ⟨by rw [hsplit]; exact List.mem_append_right _ (List.mem_cons_of_mem _ h2),
          heid ▸ hkeys.2 e' h2⟩
    refine ⟨hR1, hmem, ?_, ?_, hR3, hR4, hR5⟩
    · intro e' he' hne
      rw [hR2]
      rw [hsplit] at he'
      rcases List.mem_append.mp he' with h1 | h2
      · exact List.mem_append_left _ h1
      · rcases List.mem_cons.mp h2 with rfl | h3
        · exact absurd heid hne
        · exact List.mem_append_right _ h3
    · intro hcontra
      exact (hmem e hcontra).2 heid

/-- Witness for C9 at a concrete store with two addresses: deleting id 1
succeeds with 204. -/
theorem deletar_endereco_spec_witness :
    (deletar_endereco
        ⟨[⟨1, "u", "u@x.com", 0⟩],
         [⟨1, "r", "c", none, 1, 0⟩, ⟨2, "r2", "c2", none, 1, 0⟩], 2, 3⟩ 1).1
      = Except.ok (204, ()) := by
  have h := (deletar_endereco_spec
    ⟨[⟨1, "u", "u@x.com", 0⟩],
     [⟨1, "r", "c", none, 1, 0⟩, ⟨2, "r2", "c2", none, 1, 0⟩], 2, 3⟩ 1 (by decide)).2
  exact (h ⟨1, "r", "c", none, 1, 0⟩ (by simp) rfl).1

/-- C5: `GET /usuarios/{id}` fails with 404 exactly when no user with that id
exists, and on success returns 200 with the user record together with exactly
the addresses whose `usuario_id` equals that id, leaving the store
unchanged. -/
theorem obter_usuario_spec (db : DB) (uid : Nat) (hU : UsuarioIdsNodup db) :
    ((∀ u ∈ db.usuarios, u.id ≠ uid) →
        obter_usuario db uid = (Except.error ⟨404, "Usuário não encontrado"⟩, db))
  ∧ (∀ u ∈ db.usuarios, u.id = uid →
        (obter_usuario db uid).1
            = Except.ok (200, u, db.enderecos.filter (fun e => e.usuario_id == u.id))
      ∧ (∀ e, e ∈ db.enderecos.filter (fun e => e.usuario_id == u.id)
            ↔ e ∈ db.enderecos ∧ e.usuario_id = uid)
      ∧ (obter_usuario db uid).2 = db) := by
  constructor
  · intro h
    have hnone : db.usuarios.find? (fun x => x.id == uid) = none :=
      find?_eq_none_of_forall _ _ (by intro x hx; simpa using h x hx)
    unfold obter_usuario
    rw [hnone]
  · intro u hu huid
    have hfind : db.usuarios.find? (fun x => x.id == uid) = some u :=
      find?_key_eq_some Usuario.id uid db.usuarios u hU hu huid
    refine ⟨?_, ?_, obter_usuario_state db uid⟩
    · unfold obter_usuario
      rw [hfind]
    · intro e
      rw [List.mem_filter]
      constructor
      · rintro ⟨h1, h2⟩
        exact ⟨h1, by rw [← huid]; simpa using h2⟩
      · rintro ⟨h1, h2⟩
        exact ⟨h1, by simp [huid, h2]⟩

/-- Witness for C5 at a concrete store: user 1 owns exactly the address with
`usuario_id = 1`; the address of user 2 is not returned. -/
theorem obter_usuario_spec_witness :
    (obter_usuario
        ⟨[⟨1, "u", "u@x.com", 0⟩, ⟨2, "v", "v@x.com", 0⟩],
         [⟨1, "r", "c", none, 1, 0⟩, ⟨2, "r2", "c2", none, 2, 0⟩], 3, 3⟩ 1).1
      = Except.ok (200, ⟨1, "u", "u@x.com", 0⟩, [⟨1, "r", "c", none, 1, 0⟩]) := by
  have h := (obter_usuario_spec
    ⟨[⟨1, "u", "u@x.com", 0⟩, ⟨2, "v", "v@x.com", 0⟩],
     [⟨1, "r", "c", none, 1, 0⟩, ⟨2, "r2", "c2", none, 2, 0⟩], 3, 3⟩ 1 (by decide)).2
  exact (h ⟨1, "u", "u@x.com", 0⟩ (by simp) rfl).1

/-- C7: `POST /usuarios/{usuario_id}/enderecos` fails with 404 when the path
user id references no stored user, leaving the store unchanged; otherwise it
returns 201 with a new address row whose `usuario_id` equals the path user id,
appends exactly that row to the address table, and leaves the user table
unchanged. -/
theorem criar_endereco_spec (db : DB) (uid : Nat) (b : EnderecoBase) (now : Nat) :
    ((∀ u ∈ db.usuarios, u.id ≠ uid) →
        criar_endereco db uid b now = (Except.error ⟨404, "Usuário não encontrado"⟩, db))
  ∧ ((∃ u ∈ db.usuarios, u.id = uid) →
        (criar_endereco db uid b now).1
            = Except.ok (201, Endereco.mk db.nextEnderecoId b.rua b.cidade b.cep uid now)
      ∧ (criar_endereco db uid b now).2.enderecos
            = db.enderecos ++ [Endereco.mk db.nextEnderecoId b.rua b.cidade b.cep uid now]
      ∧ (criar_endereco db uid b now).2.usuarios = db.usuarios
      ∧ (criar_endereco db uid b now).2.nextUsuarioId = db.nextUsuarioId
      ∧ (criar_endereco db uid b now).2.nextEnderecoId = db.nextEnderecoId + 1) := by
  constructor
  · intro h
    have hnone : db.usuarios.find? (fun x => x.id == uid) = none :=
      find?_eq_none_of_forall _ _ (by intro x hx; simpa using h x hx)
    unfold criar_endereco
    rw [hnone]
  · intro h
    obtain ⟨u0, hfind⟩ := find?_isSome_of_exists (fun x => x.id == uid) db.usuarios
      (by obtain ⟨u, hu, huid⟩ := h; exact ⟨u, hu, by simp [huid]⟩)
    refine ⟨?_, ?_, ?_, ?_, ?_⟩ <;> (unfold criar_endereco; rw [hfind])

/-- Witness for C7 at a concrete store with one user. -/
theorem criar_endereco_spec_witness :
    (criar_endereco ⟨[⟨1, "u", "u@x.com", 0⟩], [], 2, 1⟩ 1 ⟨"r", "c", some "99"⟩ 5).1
      = Except.ok (201, ⟨1, "r", "c", some "99", 1, 5⟩) :=
  ((criar_endereco_spec ⟨[⟨1, "u", "u@x.com", 0⟩], [], 2, 1⟩ 1 ⟨"r", "c", some "99"⟩ 5).2
    ⟨⟨1, "u", "u@x.com", 0⟩, by simp, rfl⟩).1

/-- C10: for every request body, the persisted and returned address's
`usuario_id` is the user id taken from the URL path — the body schema
(`EnderecoBase`) has no `usuario_id` field, so no body can make the address
belong to a different user than the one named in the path. -/
theorem criar_endereco_usuario_id_from_path (db : DB) (uid : Nat) (b : EnderecoBase)
    (now : Nat) :
    (∃ u ∈ db.usuarios, u.id = uid) →
      ∃ novo : Endereco,
        (criar_endereco db uid b now).1 = Except.ok (201, novo)
      ∧ novo.usuario_id = uid
      ∧ novo ∈ (criar_endereco db uid b now).2.enderecos
      ∧ ∀ e ∈ (criar_endereco db uid b now).2.enderecos, e ∈ db.enderecos ∨ e = novo := by
  intro h
  obtain ⟨u0, hfind⟩ := find?_isSome_of_exists (fun x => x.id == uid) db.usuarios
    (by obtain ⟨u, hu, huid⟩ := h; exact ⟨u, hu, by simp [huid]⟩)
  refine ⟨Endereco.mk db.nextEnderecoId b.rua b.cidade b.cep uid now, ?_, rfl, ?_, ?_⟩
  · unfold criar_endereco
    rw [hfind]
  · have : (criar_endereco db uid b now).2.enderecos
        = db.enderecos ++ [Endereco.mk db.nextEnderecoId b.rua b.cidade b.cep uid now] := by
      unfold criar_endereco
      rw [hfind]
    rw [this]
    exact List.mem_append_right _ (List.mem_singleton.mpr rfl)
  · intro e he
    have : (criar_endereco db uid b now).2.enderecos
        = db.enderecos ++ [Endereco.mk db.nextEnderecoId b.rua b.cidade b.cep uid now] := by
      unfold criar_endereco
      rw [hfind]
    rw [this] at he
    rcases List.mem_append.mp he with h1 | h2
    · exact Or.inl h1
    · exact Or.inr (List.mem_singleton.mp h2)

/-- Witness for C10: with a body, the created address belongs to path user 1.
The witness body is arbitrary; the membership facts are evaluated
concretely. -/
theorem criar_endereco_usuario_id_from_path_witness :
    ∃ novo : Endereco,
      (criar_endereco ⟨[⟨1, "u", "u@x.com", 0⟩], [], 2, 1⟩ 1 ⟨"r", "c", none⟩ 0).1
          = Except.ok (201, novo)
    ∧ novo.usuario_id = 1
    ∧ novo ∈ (criar_endereco ⟨[⟨1, "u", "u@x.com", 0⟩], [], 2, 1⟩ 1 ⟨"r", "c", none⟩ 0).2.enderecos
    ∧ ∀ e ∈ (criar_endereco ⟨[⟨1, "u", "u@x.com", 0⟩], [], 2, 1⟩ 1
          ⟨"r", "c", none⟩ 0).2.enderecos,
        e ∈ ([] : List Endereco) ∨ e = novo :=
  criar_endereco_usuario_id_from_path ⟨[⟨1, "u", "u@x.com", 0⟩], [], 2, 1⟩ 1 ⟨"r", "c", none⟩ 0
    ⟨⟨1, "u", "u@x.com", 0⟩, by simp, rfl⟩

/-- C1: `POST /usuarios` fails with 400 and an unchanged store when some
stored user has a byte-for-byte equal email; otherwise it succeeds with 201,
appends exactly one new user row carrying a server-generated id never issued
before (fresh with respect to every stored id), the input name and email, and
the creation timestamp, and returns that full record. -/
theorem criar_usuario_spec (db : DB) (inp : UsuarioCreate) (now : Nat)
    (hN : UsuarioIdsBelowNext db) :
    ((∃ u ∈ db.usuarios, u.email = inp.email) →
        criar_usuario db inp now = (Except.error ⟨400, "Email já cadastrado"⟩, db))
  ∧ ((∀ u ∈ db.usuarios, u.email ≠ inp.email) →
        (criar_usuario db inp now).1
            = Except.ok (201, Usuario.mk db.nextUsuarioId inp.nome inp.email now)
      ∧ (criar_usuario db inp now).2.usuarios
            = db.usuarios ++ [Usuario.mk db.nextUsuarioId inp.nome inp.email now]
      ∧ (criar_usuario db inp now).2.enderecos = db.enderecos
      ∧ (criar_usuario db inp now).2.nextUsuarioId = db.nextUsuarioId + 1
      ∧ (criar_usuario db inp now).2.nextEnderecoId = db.nextEnderecoId
      ∧ ∀ u ∈ db.usuarios, u.id ≠ db.nextUsuarioId) := by
  constructor
  · intro h
    obtain ⟨u0, hfind⟩ := find?_isSome_of_exists (fun x => x.email == inp.email) db.usuarios
      (by obtain ⟨u, hu, hm⟩ := h; exact ⟨u, hu, by simp [hm]⟩)
    unfold criar_usuario
    rw [hfind]
  · intro h
    have hnone : db.usuarios.find? (fun x => x.email == inp.email) = none :=
      find?_eq_none_of_forall _ _ (by intro x hx; simpa using h x hx)
    refine ⟨?_, ?_, ?_, ?_, ?_, ?_⟩
    · unfold criar_usuario; rw [hnone]
    · unfold criar_usuario; rw [hnone]
    · unfold criar_usuario; rw [hnone]
    · unfold criar_usuario; rw [hnone]
    · unfold criar_usuario; rw [hnone]
    · intro u hu
      exact Nat.ne_of_lt (hN u hu)

/-- Witness for C1: creating into the empty store issues id 1 with the given
timestamp. -/
theorem criar_usuario_spec_witness :
    (criar_usuario emptyDB ⟨"A", "a@x.com"⟩ 7).1
      = Except.ok (201, ⟨1, "A", "a@x.com", 7⟩) :=
  ((criar_usuario_spec emptyDB ⟨"A", "a@x.com"⟩ 7 (by decide)).2
    (by intro u hu; simp [emptyDB] at hu)).1

/-- C3: `PUT /usuarios/{id}` fails with 404 and an unchanged store when the id
is absent; fails with 400 and an unchanged store when a user other than the
one with that id already has the input email; otherwise it overwrites exactly
the `nome` and `email` of the row with that id — its `id` and `criado_em` and
every other row and the rest of the store unchanged — and returns the updated
record. -/
theorem atualizar_usuario_spec (db : DB) (uid : Nat) (inp : UsuarioCreate)
    (hU : UsuarioIdsNodup db) :
    ((∀ u ∈ db.usuarios, u.id ≠ uid) →
        atualizar_usuario db uid inp = (Except.error ⟨404, "Usuário não encontrado"⟩, db))
  ∧ ((∃ u ∈ db.usuarios, u.id = uid) → (∃ u ∈ db.usuarios, u.email = inp.email ∧ u.id ≠ uid) →
        atualizar_usuario db uid inp = (Except.error ⟨400, "Email já cadastrado"⟩, db))
  ∧ (∀ u ∈ db.usuarios, u.id = uid →
      (∀ u' ∈ db.usuarios, u'.email = inp.email → u'.id = uid) →
        (atualizar_usuario db uid inp).1
            = Except.ok (200, { u with nome := inp.nome, email := inp.email })
      ∧ ({ u with nome := inp.nome, email := inp.email } : Usuario).id = u.id
      ∧ ({ u with nome := inp.nome, email := inp.email } : Usuario).criado_em = u.criado_em
      ∧ { u with nome := inp.nome, email := inp.email } ∈ (atualizar_usuario db uid inp).2.usuarios
      ∧ (∀ u' ∈ db.usuarios, u'.id ≠ uid → u' ∈ (atualizar_usuario db uid inp).2.usuarios)
      ∧ (∀ u' ∈ (atualizar_usuario db uid inp).2.usuarios,
            u' = { u with nome := inp.nome, email := inp.email }
          ∨ (u' ∈ db.usuarios ∧ u'.id ≠ uid))
      ∧ (atualizar_usuario db uid inp).2.enderecos = db.enderecos
      ∧ (atualizar_usuario db uid inp).2.nextUsuarioId = db.nextUsuarioId
      ∧ (atualizar_usuario db uid inp).2.nextEnderecoId = db.nextEnderecoId) := by
  refine ⟨?_, ?_, ?_⟩
  · intro h
    have hnone : db.usuarios.find? (fun x => x.id == uid) = none :=
      find?_eq_none_of_forall _ _ (by intro x hx; simpa using h x hx)
    unfold atualizar_usuario
    rw [hnone]
  · intro h1 h2
    obtain ⟨u0, hfind⟩ := find?_isSome_of_exists (fun x => x.id == uid) db.usuarios
      (by obtain ⟨u, hu, huid⟩ := h1; exact ⟨u, hu, by simp [huid]⟩)
    obtain ⟨u1, hfind2⟩ := find?_isSome_of_exists
      (fun x => x.email == inp.email && x.id != uid) db.usuarios
      (by obtain ⟨u, hu, hm, hne⟩ := h2; exact ⟨u, hu, by simp [hm, hne]⟩)
    unfold atualizar_usuario
    rw [hfind, hfind2]
  · intro u hu huid hemail
    have hfind : db.usuarios.find? (fun x => x.id == uid) = some u :=
      find?_key_eq_some Usuario.id uid db.usuarios u hU hu huid
    have hnone2 : db.usuarios.find? (fun x => x.email == inp.email && x.id != uid) = none := by
      refine find?_eq_none_of_forall _ _ ?_
      intro x hx
      by_cases hm : x.email = inp.email
      · have := hemail x hx hm
        simp [hm, this]
      · simp [hm]
    obtain ⟨l1, l2, hsplit, hl1, hupd, -⟩ :=
      find?_split (fun x => x.id == uid)
        (fun x => { x with nome := inp.nome, email := inp.email }) db.usuarios u hfind
    have hkeys := nodup_split_keys Usuario.id l1 l2 u (by rw [← hsplit]; exact hU)
    have hR1 : (atualizar_usuario db uid inp).1
        = Except.ok (200, { u with nome := inp.nome, email := inp.email }) := by
      unfold atualizar_usuario
      rw [hfind, hnone2]
    have hR2 : (atualizar_usuario db uid inp).2.usuarios
        = l1 ++ { u with nome := inp.nome, email := inp.email } :: l2 := by
      unfold atualizar_usuario
      rw [hfind, hnone2]
      exact hupd
    have hR3 : (atualizar_usuario db uid inp).2.enderecos = db.enderecos := by
      unfold atualizar_usuario
      rw [hfind, hnone2]
    have hR4 : (atualizar_usuario db uid inp).2.nextUsuarioId = db.nextUsuarioId := by
      unfold atualizar_usuario
      rw [hfind, hnone2]
    have hR5 : (atualizar_usuario db uid inp).2.nextEnderecoId = db.nextEnderecoId := by
      unfold atualizar_usuario
      rw [hfind, hnone2]
    refine ⟨hR1, rfl, rfl, ?_, ?_, ?_, hR3, hR4, hR5⟩
    · rw [hR2]
      exact List.mem_append_right _ (List.mem_cons_self _ _)
    · intro u' hu' hne
      rw [hR2]
      rw [hsplit] at hu'
      rcases List.mem_append.mp hu' with h1 | h2
      · exact List.mem_append_left _ h1
      · rcases List.mem_cons.mp h2 with rfl | h3
        · exact absurd huid hne
        · exact List.mem_append_right _ (List.mem_cons_of_mem _ h3)
    · intro u' hu'
      rw [hR2] at hu'
      rcases List.mem_append.mp hu' with h1 | h2
      · refine Or.inr ⟨by rw [hsplit]; exact List.mem_append_left _ h1, ?_⟩
        rw [← huid]
        exact hkeys.1 u' h1
      · rcases List.mem_cons.mp h2 with rfl | h3
        · exact Or.inl rfl
        · refine Or.inr ⟨?_, ?_⟩
          · rw [hsplit]
            exact List.mem_append_right _ (List.mem_cons_of_mem _ h3)
          · rw [← huid]
            exact hkeys.2 u' h3

/-- Witness for C3: updating user 1's name and email succeeds and keeps id and
creation timestamp. -/
theorem atualizar_usuario_spec_witness :
    (atualizar_usuario ⟨[⟨1, "u", "a@x.com", 3⟩], [], 2, 1⟩ 1 ⟨"w", "b@x.com"⟩).1
      = Except.ok (200, ⟨1, "w", "b@x.com", 3⟩) := by
  have h := (atualizar_usuario_spec ⟨[⟨1, "u", "a@x.com", 3⟩], [], 2, 1⟩ 1 ⟨"w", "b@x.com"⟩
    (by decide)).2.2
  exact (h ⟨1, "u", "a@x.com", 3⟩ (by simp) rfl (by decide)).1

/-- C2: `DELETE /usuarios/{id}` on an absent id fails with 404 leaving the
store unchanged; on an existing id it returns 204, removes the user row — no
user with that id remains, and every surviving user row is one of the old
rows with a different id — and removes every address row referencing it, so
that no address with that `usuario_id` remains (other addresses survive) and
a subsequent lookup of each removed address id — via `DELETE /enderecos/{id}`
or `PUT /enderecos/{id}` — fails with 404; both counters are untouched.
Moreover every operation of the service preserves the invariant that each
stored address's `usuario_id` references an existing user. -/
theorem deletar_usuario_cascade (db : DB) (uid : Nat) (hU : UsuarioIdsNodup db)
    (hE : EnderecoIdsNodup db) :
    ((∀ u ∈ db.usuarios, u.id ≠ uid) →
        deletar_usuario db uid = (Except.error ⟨404, "Usuário não encontrado"⟩, db))
  ∧ ((∃ u ∈ db.usuarios, u.id = uid) →
        (deletar_usuario db uid).1 = Except.ok (204, ())
      ∧ (∀ u' ∈ (deletar_usuario db uid).2.usuarios, u' ∈ db.usuarios ∧ u'.id ≠ uid)
      ∧ (∀ u' ∈ db.usuarios, u'.id ≠ uid → u' ∈ (deletar_usuario db uid).2.usuarios)
      ∧ (∀ e ∈ (deletar_usuario db uid).2.enderecos, e.usuario_id ≠ uid)
      ∧ (∀ e ∈ db.enderecos, e.usuario_id ≠ uid → e ∈ (deletar_usuario db uid).2.enderecos)
      ∧ (∀ e ∈ db.enderecos, e.usuario_id = uid →
            (deletar_endereco (deletar_usuario db uid).2 e.id).1
                = Except.error ⟨404, "Endereço não encontrado"⟩
          ∧ ∀ b : EnderecoBase,
              (atualizar_endereco (deletar_usuario db uid).2 e.id b).1
                = Except.error ⟨404, "Endereço não encontrado"⟩)
      ∧ (deletar_usuario db uid).2.nextUsuarioId = db.nextUsuarioId
      ∧ (deletar_usuario db uid).2.nextEnderecoId = db.nextEnderecoId)
  ∧ (∀ db2 : DB, RefIntegrity db2 →
        (∀ inp now, RefIntegrity (criar_usuario db2 inp now).2)
      ∧ (∀ skip limit, RefIntegrity (listar_usuarios db2 skip limit).2)
      ∧ (∀ i, RefIntegrity (obter_usuario db2 i).2)
      ∧ (∀ i inp, RefIntegrity (atualizar_usuario db2 i inp).2)
      ∧ (∀ i, RefIntegrity (deletar_usuario db2 i).2)
      ∧ (∀ i b now, RefIntegrity (criar_endereco db2 i b now).2)
      ∧ (∀ i, RefIntegrity (obter_enderecos_usuario db2 i).2)
      ∧ (∀ i b, RefIntegrity (atualizar_endereco db2 i b).2)
      ∧ (∀ i, RefIntegrity (deletar_endereco db2 i).2)) := by
  refine ⟨?_, ?_, ?_⟩
  · intro h
    have hnone : db.usuarios.find? (fun x => x.id == uid) = none :=
      find?_eq_none_of_forall _ _ (by intro x hx; simpa using h x hx)
    unfold deletar_usuario
    rw [hnone]
  · intro h
    obtain ⟨u, hu, huid⟩ := h
    have hfind : db.usuarios.find? (fun x => x.id == uid) = some u :=
      find?_key_eq_some Usuario.id uid db.usuarios u hU hu huid
    obtain ⟨l1, l2, hsplit, -, -, herase⟩ :=
      find?_split (fun x => x.id == uid) id db.usuarios u hfind
    have hukeys := nodup_split_keys Usuario.id l1 l2 u (by rw [← hsplit]; exact hU)
    have hR1 : (deletar_usuario db uid).1 = Except.ok (204, ()) := by
      unfold deletar_usuario
      rw [hfind]
    have hRu : (deletar_usuario db uid).2.usuarios = l1 ++ l2 := by
      unfold deletar_usuario
      rw [hfind]
      exact herase
    have hR2 : (deletar_usuario db uid).2.enderecos
        = db.enderecos.filter (fun e => !(e.usuario_id == uid)) := by
      unfold deletar_usuario
      rw [hfind]
    have hR4 : (deletar_usuario db uid).2.nextUsuarioId = db.nextUsuarioId := by
      unfold deletar_usuario
      rw [hfind]
    have hR5 : (deletar_usuario db uid).2.nextEnderecoId = db.nextEnderecoId := by
      unfold deletar_usuario
      rw [hfind]
    have hmem : ∀ e ∈ (deletar_usuario db uid).2.enderecos,
        e ∈ db.enderecos ∧ e.usuario_id ≠ uid := by
      intro e he
      rw [hR2] at he
      have := List.mem_filter.mp he
      exact ⟨this.1, by simpa using this.2⟩
    refine ⟨hR1, ?_, ?_, fun e he => (hmem e he).2, ?_, ?_, hR4, hR5⟩
    · intro u' hu'
      rw [hRu] at hu'
      rcases List.mem_append.mp hu' with h1 | h2
      · exact ⟨by rw [hsplit]; exact List.mem_append_left _ h1, huid ▸ hukeys.1 u' h1⟩
      · exact ⟨by rw [hsplit]; exact List.mem_append_right _ (List.mem_cons_of_mem _ h2),
          huid ▸ hukeys.2 u' h2⟩
    · intro u' hu' hne
      rw [hRu]
      rw [hsplit] at hu'
      rcases List.mem_append.mp hu' with h1 | h2
      · exact List.mem_append_left _ h1
      · rcases List.mem_cons.mp h2 with rfl | h3
        · exact absurd huid hne
        · exact List.mem_append_right _ h3
    · intro e he hne
      rw [hR2]
      exact List.mem_filter.mpr ⟨he, by simpa using hne⟩
    · intro e he heq
      have hnone2 : (deletar_usuario db uid).2.enderecos.find? (fun x => x.id == e.id)
          = none := by
        refine find?_eq_none_of_forall _ _ ?_
        intro x hx
        obtain ⟨hxmem, hxuid⟩ := hmem x hx
        have hxe : x ≠ e := by
          intro hcontra
          exact hxuid (hcontra ▸ heq)
        have : x.id ≠ e.id := fun hid =>
          hxe (List.inj_on_of_nodup_map hE hxmem he hid)
        simpa using this
      constructor
      · unfold deletar_endereco
        rw [hnone2]
      · intro b
        unfold atualizar_endereco
        rw [hnone2]
  · intro db2 h
    refine ⟨fun inp now => refIntegrity_criar_usuario db2 inp now h,
      fun skip limit => by rw [listar_usuarios_state]; exact h,
      fun i => by rw [obter_usuario_state]; exact h,
      fun i inp => refIntegrity_atualizar_usuario db2 i inp h,
      fun i => refIntegrity_deletar_usuario db2 i h,
      fun i b now => refIntegrity_criar_endereco db2 i b now h,
      fun i => by rw [obter_enderecos_usuario_state]; exact h,
      fun i b => refIntegrity_atualizar_endereco db2 i b h,
      fun i => refIntegrity_deletar_endereco db2 i h⟩

/-- Witness for C2: deleting user 1, who owns the only address, succeeds, no
user with id 1 survives, and the subsequent address lookup fails with 404. -/
theorem deletar_usuario_cascade_witness :
    (deletar_usuario ⟨[⟨1, "u", "u@x.com", 0⟩], [⟨1, "r", "c", none, 1, 0⟩], 2, 2⟩ 1).1
        = Except.ok (204, ())
  ∧ (∀ u' ∈ (deletar_usuario
        ⟨[⟨1, "u", "u@x.com", 0⟩], [⟨1, "r", "c", none, 1, 0⟩], 2, 2⟩ 1).2.usuarios,
      u' ∈ [(⟨1, "u", "u@x.com", 0⟩ : Usuario)] ∧ u'.id ≠ 1)
  ∧ (deletar_endereco
      (deletar_usuario ⟨[⟨1, "u", "u@x.com", 0⟩], [⟨1, "r", "c", none, 1, 0⟩], 2, 2⟩ 1).2 1).1
        = Except.error ⟨404, "Endereço não encontrado"⟩ := by
  have h := (deletar_usuario_cascade
    ⟨[⟨1, "u", "u@x.com", 0⟩], [⟨1, "r", "c", none, 1, 0⟩], 2, 2⟩ 1 (by decide) (by decide)).2.1
    ⟨⟨1, "u", "u@x.com", 0⟩, by simp, rfl⟩
  exact ⟨h.1, h.2.1, (h.2.2.2.2.2.1 ⟨1, "r", "c", none, 1, 0⟩ (by simp) rfl).1⟩

/-- C8 (observed code behavior): in the check₁-check₂-commit₁-commit₂
interleaving of two requests creating the same email against the empty store,
both application-level pre-checks pass, the first request succeeds (so at most
one succeeds), and the second hits the store's unique-email constraint at
commit — which the handler code does not catch, so the caller sees an
unhandled integrity error and not the `DuplicateEmail` (400) response. -/
theorem race_criar_usuario_unhandled :
    (race_criar_usuario emptyDB ⟨"A", "a@x.com"⟩ ⟨"B", "a@x.com"⟩ 0).1
        = RequestOutcome.created ⟨1, "A", "a@x.com", 0⟩
  ∧ (race_criar_usuario emptyDB ⟨"A", "a@x.com"⟩ ⟨"B", "a@x.com"⟩ 0).2.1
        = RequestOutcome.integrityError
  ∧ isDuplicateEmailResponse
      (race_criar_usuario emptyDB ⟨"A", "a@x.com"⟩ ⟨"B", "a@x.com"⟩ 0).2.1 = false :=
  ⟨rfl, rfl, rfl⟩

/-- Witness for C6: a three-user store paged with `skip = 1`, `limit = 1`
returns exactly the second user, store unchanged. -/
theorem listar_usuarios_spec_witness :
    listar_usuarios
        ⟨[⟨1, "A", "a@x.com", 0⟩, ⟨2, "B", "b@x.com", 0⟩, ⟨3, "C", "c@x.com", 0⟩], [], 4, 1⟩ 1 1
      = (Except.ok (200, [⟨2, "B", "b@x.com", 0⟩]),
         ⟨[⟨1, "A", "a@x.com", 0⟩, ⟨2, "B", "b@x.com", 0⟩, ⟨3, "C", "c@x.com", 0⟩], [], 4, 1⟩) :=
  (listar_usuarios_spec
    ⟨[⟨1, "A", "a@x.com", 0⟩, ⟨2, "B", "b@x.com", 0⟩, ⟨3, "C", "c@x.com", 0⟩], [], 4, 1⟩ 1 1).1
